import Mathlib

/-!
Verification of the resilient-fetch component of the manga-web backend
(`fetchWithTimeout` and `fetchWithRetry`, src/unnamed/part_000 lines 12-38).

The two functions are embedded shallowly:

* the nondeterminism of the network is captured by a `TransportBehavior`
  per attempt (at which time the underlying `fetch` settles, and whether it
  resolves with a response or rejects with a transport error);
* `fetchWithTimeout` races that settling time against the abort timer that
  the source schedules with `setTimeout(() => controller.abort(), timeout)`:
  if the transport settles strictly before the timer fires, `clearTimeout`
  cancels the abort and the natural result is returned; otherwise the timer
  fires, `controller.abort()` cancels the in-flight call, and the awaited
  `fetch` rejects with an abort error;
* `fetchWithRetry` is the source's `for` loop, embedded with an explicit
  fuel argument equal to the number of remaining iterations, and it records
  a trace of observable events (attempts, retry log lines, backoff sleeps).
-/

namespace MangaWeb

/-- Values stored in a JavaScript options object, as far as the component
inspects them: header maps, strings, numbers, and abort-signal references. -/
inductive JsValue where
  | str (s : String)
  | num (n : Nat)
  | headerMap (l : List (String × String))
  | signalRef (id : Nat)
deriving DecidableEq, Repr

/-- A JavaScript object is a list of key/value properties; property access is
first-occurrence lookup. -/
abbrev JsObject := List (String × JsValue)

/-- Whether an object has a property named `k`. -/
def objHas (o : JsObject) (k : String) : Bool :=
  match o with
  | [] => false
  | (a, _) :: rest => if a = k then true else objHas rest k

/-- Property access `o[k]`: the value at the first property named `k`. -/
def objGet (o : JsObject) (k : String) : Option JsValue :=
  match o with
  | [] => none
  | (a, v) :: rest => if a = k then some v else objGet rest k

/-- The spread-and-override `{ ...options, signal: v }` of line 16: every
property of `options` is kept (an existing `signal` property is overwritten in
place), and a `signal` property is appended when absent. -/
def objSet (o : JsObject) (k : String) (v : JsValue) : JsObject :=
  if objHas o k then
    o.map (fun p => if p.1 = k then (k, v) else p)
  else
    o ++ [(k, v)]

/-- A transport response; the component only inspects `status` (through
`response.ok`). -/
structure Response where
  status : Nat
deriving DecidableEq, Repr

/-- node-fetch's `response.ok`: status in the inclusive range 200-299. -/
def Response.ok (r : Response) : Bool :=
  200 ≤ r.status && r.status < 300

/-- The failures the component can surface: the abort error produced when the
timeout fires, a low-level transport error, or the synthesized
`HTTP error! Status: s` thrown on a non-success status (line 30). -/
inductive FetchError where
  | aborted
  | transport (msg : String)
  | httpStatus (status : Nat)
deriving DecidableEq, Repr

/-- What the underlying `fetch` would do on one attempt, absent any abort: at
time `t` (milliseconds from the start of the attempt) it either resolves with
a response or rejects with a transport error. -/
inductive TransportBehavior where
  | arrives (t : Nat) (resp : Response)
  | fails (t : Nat) (msg : String)
deriving DecidableEq, Repr

/-- The time at which the underlying call settles, absent an abort. -/
def TransportBehavior.settleTime : TransportBehavior → Nat
  | .arrives t _ => t
  | .fails t _ => t

deriving instance DecidableEq for Except

/-- Everything observable about one `fetchWithTimeout` call: the value the
awaited promise produced (or the error it threw), whether `controller.abort()`
fired on the in-flight call, and the second argument handed to `fetch`. -/
structure TimeoutResult where
  result : Except FetchError Response
  aborted : Bool
  sentInit : JsObject
deriving DecidableEq, Repr

/-- Lines 12-23: schedule `controller.abort()` after `timeout` ms, await
`fetch(url, { ...options, signal: controller.signal })`, and clear the timer
however the await settles.  If the transport settles strictly before the
timer, the timer is cleared and the natural outcome is returned; otherwise
the timer fires first, the in-flight call is aborted, and the await rejects
with the abort error. -/
def fetchWithTimeout (b : TransportBehavior) (url : String) (options : JsObject)
    (timeout : Nat) : TimeoutResult :=
  let init := objSet options "signal" (JsValue.signalRef 0)
  if b.settleTime < timeout then
    match b with
    | .arrives _ resp => ⟨.ok resp, false, init⟩
    | .fails _ msg => ⟨.error (.transport msg), false, init⟩
  else
    ⟨.error .aborted, true, init⟩

/-- The outcome of the `try` block of one loop iteration (lines 29-31): the
attempt's `fetchWithTimeout` result, with a non-success status converted into
the thrown `HTTP error! Status: s`.  The source calls
`fetchWithTimeout(url, options)` with no third argument, so the default
timeout `10000` applies to every attempt. -/
def attemptResult (beh : Nat → TransportBehavior) (url : String)
    (options : JsObject) (i : Nat) : Except FetchError Response :=
  match (fetchWithTimeout (beh i) url options 10000).result with
  | .ok resp => if resp.ok then .ok resp else .error (.httpStatus resp.status)
  | .error e => .error e

/-- Observable events of one `fetchWithRetry` call: a call to
`fetchWithTimeout` (attempt `i`, zero-based), the
`console.log("Retrying (cur/total)...")` line, and the 2000 ms backoff
sleep. -/
inductive Event where
  | attempt (i : Nat)
  | retryLog (cur total : Nat)
  | backoff (ms : Nat)
deriving DecidableEq, Repr

def Event.isAttempt : Event → Bool
  | .attempt _ => true
  | _ => false

def Event.isRetryLog : Event → Bool
  | .retryLog _ _ => true
  | _ => false

def Event.isBackoff : Event → Bool
  | .backoff _ => true
  | _ => false

/-- How a `fetchWithRetry` call completes: returning a response, throwing an
error, or falling out of the loop and returning `undefined` (which happens
exactly when the loop body never runs). -/
inductive RetryResult where
  | ok (resp : Response)
  | err (e : FetchError)
  | undef
deriving DecidableEq, Repr

def RetryResult.isOk : RetryResult → Bool
  | .ok _ => true
  | _ => false

def RetryResult.isErr : RetryResult → Bool
  | .err _ => true
  | _ => false

/-- The `for` loop of lines 27-37, from iteration `i` with `n` iterations
remaining (`n = retries - i` at every call).  With no iterations left the
function returns `undefined`.  Otherwise: run the attempt; on success return
the response; on failure rethrow if this was the last iteration, else log
`Retrying ((i+1)/retries)...`, sleep 2000 ms, and continue. -/
def retryLoopAux (beh : Nat → TransportBehavior) (url : String)
    (options : JsObject) (retries : Nat) (i : Nat) :
    Nat → List Event × RetryResult
  | 0 => ([], .undef)
  | n + 1 =>
    match attemptResult beh url options i with
    | .ok resp => ([.attempt i], .ok resp)
    | .error e =>
      if i = retries - 1 then
        ([.attempt i], .err e)
      else
        let rest := retryLoopAux beh url options retries (i + 1) n
        (.attempt i :: .retryLog (i + 1) retries :: .backoff 2000 :: rest.1,
          rest.2)

/-- Lines 26-38: `fetchWithRetry(url, options = {}, retries = 3)`.  The third
parameter of the source function is the retry count; no timeout parameter
exists on this function. -/
def fetchWithRetry (beh : Nat → TransportBehavior) (url : String)
    (options : JsObject) (retries : Nat) : List Event × RetryResult :=
  retryLoopAux beh url options retries 0 retries

/-- The number of attempts (calls to `fetchWithTimeout`) recorded in a
trace. -/
def countAttempts : List Event → Nat
  | [] => 0
  | .attempt _ :: es => countAttempts es + 1
  | _ :: es => countAttempts es

/-- The events one failed-and-retried iteration `i` contributes to the
trace: the attempt itself, the `Retrying ((i+1)/retries)...` notice, and the
2000 ms backoff sleep. -/
def retrySegment (retries i : Nat) : List Event :=
  [Event.attempt i, Event.retryLog (i + 1) retries, Event.backoff 2000]

/-- The expected trace of a run whose iterations `i, ..., j - 1` all fail and
which is decided (success or final throw) at iteration `j`. -/
def runTrace (retries i j : Nat) : List Event :=
  ((List.range' i (j - i)).map (retrySegment retries)).flatten ++
    [Event.attempt j]

/-- Whether the `try` block of iteration `i` completes without throwing. -/
def attemptOk (beh : Nat → TransportBehavior) (url : String)
    (options : JsObject) (i : Nat) : Bool :=
  match attemptResult beh url options i with
  | .ok _ => true
  | .error _ => false

/-- The spec's published interface,
`resilientFetch(address, options?, timeoutMs = 10000, maxRetries = 3)`, in
which the caller-supplied `timeoutMs` bounds every individual attempt.  This
definition follows the spec's words (not the source) so that the source's
`fetchWithRetry` can be compared against it; the loop body is otherwise the
one of lines 27-37, with `timeoutMs` forwarded to `fetchWithTimeout`. -/
def specAttemptResult (beh : Nat → TransportBehavior) (url : String)
    (options : JsObject) (timeoutMs : Nat) (i : Nat) :
    Except FetchError Response :=
  match (fetchWithTimeout (beh i) url options timeoutMs).result with
  | .ok resp => if resp.ok then .ok resp else .error (.httpStatus resp.status)
  | .error e => .error e

/-- The retry loop of the spec's interface, forwarding `timeoutMs` to each
attempt (see `specAttemptResult`). -/
def specRetryLoopAux (beh : Nat → TransportBehavior) (url : String)
    (options : JsObject) (timeoutMs : Nat) (retries : Nat) (i : Nat) :
    Nat → List Event × RetryResult
  | 0 => ([], .undef)
  | n + 1 =>
    match specAttemptResult beh url options timeoutMs i with
    | .ok resp => ([.attempt i], .ok resp)
    | .error e =>
      if i = retries - 1 then
        ([.attempt i], .err e)
      else
        let rest := specRetryLoopAux beh url options timeoutMs retries (i + 1) n
        (.attempt i :: .retryLog (i + 1) retries :: .backoff 2000 :: rest.1,
          rest.2)

/-- The spec's `resilientFetch` operation (see `specRetryLoopAux`). -/
def resilientFetchSpec (beh : Nat → TransportBehavior) (url : String)
    (options : JsObject) (timeoutMs : Nat) (maxRetries : Nat) :
    List Event × RetryResult :=
  specRetryLoopAux beh url options timeoutMs maxRetries 0 maxRetries

example :
    fetchWithRetry (fun _ => .arrives 5 ⟨200⟩) "u" [] 3 =
      ([.attempt 0], .ok ⟨200⟩) := by decide

example :
    fetchWithRetry (fun _ => .arrives 20000 ⟨200⟩) "u" [] 2 =
      ([.attempt 0, .retryLog 1 2, .backoff 2000, .attempt 1],
        .err .aborted) := by decide

example : fetchWithRetry (fun _ => .arrives 5 ⟨404⟩) "u" [] 1 =
    ([.attempt 0], .err (.httpStatus 404)) := by decide

example : runTrace 3 0 2 =
    [.attempt 0, .retryLog 1 3, .backoff 2000,
     .attempt 1, .retryLog 2 3, .backoff 2000, .attempt 2] := by decide

/-! Helper lemmas about traces and the loop. -/

theorem runTrace_self (retries i : Nat) : runTrace retries i i = [Event.attempt i] := by
  simp [runTrace]

theorem runTrace_cons (retries i j : Nat) (h : i < j) :
    runTrace retries i j =
      Event.attempt i :: Event.retryLog (i + 1) retries :: Event.backoff 2000 ::
        runTrace retries (i + 1) j := by
  have hd : j - i = (j - (i + 1)) + 1 := by omega
  simp only [runTrace, hd, List.range'_succ, List.map_cons, List.flatten_cons]
  simp [retrySegment]

theorem countAttempts_runTrace (retries : Nat) :
    ∀ d i, countAttempts (runTrace retries i (i + d)) = d + 1 := by
  intro d
  induction d with
  | zero =>
    intro i
    simp [runTrace_self, countAttempts]
  | succ d ih =>
    intro i
    rw [show i + (d + 1) = (i + 1) + d by omega]
    rw [runTrace_cons retries i ((i + 1) + d) (by omega)]
    simp [countAttempts, ih (i + 1)]

theorem countAttempts_runTrace_of_le (retries i j : Nat) (h : i ≤ j) :
    countAttempts (runTrace retries i j) = j - i + 1 := by
  obtain ⟨d, rfl⟩ : ∃ d, j = i + d := ⟨j - i, by omega⟩
  rw [countAttempts_runTrace]
  omega

theorem filter_backoff_runTrace (retries : Nat) :
    ∀ d i, (runTrace retries i (i + d)).filter Event.isBackoff =
      List.replicate d (Event.backoff 2000) := by
  intro d
  induction d with
  | zero =>
    intro i
    simp [runTrace_self, Event.isBackoff]
  | succ d ih =>
    intro i
    rw [show i + (d + 1) = (i + 1) + d by omega]
    rw [runTrace_cons retries i ((i + 1) + d) (by omega)]
    simp [Event.isBackoff, ih (i + 1), List.replicate_succ]

theorem filter_retryLog_runTrace (retries : Nat) :
    ∀ d i, (runTrace retries i (i + d)).filter Event.isRetryLog =
      (List.range' (i + 1) d).map (fun m => Event.retryLog m retries) := by
  intro d
  induction d with
  | zero =>
    intro i
    simp [runTrace_self, Event.isRetryLog]
  | succ d ih =>
    intro i
    rw [show i + (d + 1) = (i + 1) + d by omega]
    rw [runTrace_cons retries i ((i + 1) + d) (by omega)]
    simp [Event.isRetryLog, ih (i + 1), List.range'_succ]

theorem retryLoopAux_allFail (beh : Nat → TransportBehavior) (url : String)
    (options : JsObject) (retries : Nat) (es : Nat → FetchError) :
    ∀ n i, i + n = retries → 0 < n →
      (∀ j, i ≤ j → j < retries →
        attemptResult beh url options j = .error (es j)) →
      retryLoopAux beh url options retries i n =
        (runTrace retries i (retries - 1), .err (es (retries - 1))) := by
  intro n
  induction n with
  | zero =>
    intro i _ h0 _
    omega
  | succ n ih =>
    intro i hi _ hfail
    have hilt : i < retries := by omega
    have hai : attemptResult beh url options i = .error (es i) :=
      hfail i le_rfl hilt
    by_cases hlast : i = retries - 1
    · subst hlast
      simp [retryLoopAux, hai, runTrace_self]
    · rw [show retryLoopAux beh url options retries i (n + 1) =
          (Event.attempt i :: Event.retryLog (i + 1) retries ::
            Event.backoff 2000 ::
            (retryLoopAux beh url options retries (i + 1) n).1,
            (retryLoopAux beh url options retries (i + 1) n).2) by
        simp [retryLoopAux, hai, hlast]]
      rw [ih (i + 1) (by omega) (by omega)
        (fun j h1 h2 => hfail j (by omega) h2)]
      rw [runTrace_cons retries i (retries - 1) (by omega)]

theorem retryLoopAux_succAt (beh : Nat → TransportBehavior) (url : String)
    (options : JsObject) (retries : Nat) (es : Nat → FetchError)
    (resp : Response) :
    ∀ n i j, i + n = retries → i ≤ j → j < retries →
      (∀ m, i ≤ m → m < j →
        attemptResult beh url options m = .error (es m)) →
      attemptResult beh url options j = .ok resp →
      retryLoopAux beh url options retries i n =
        (runTrace retries i j, .ok resp) := by
  intro n
  induction n with
  | zero =>
    intro i j h1 h2 h3 _ _
    omega
  | succ n ih =>
    intro i j h1 h2 h3 hfail hok
    by_cases hij : i = j
    · subst hij
      simp [retryLoopAux, hok, runTrace_self]
    · have hilt : i < j := by omega
      have hai : attemptResult beh url options i = .error (es i) :=
        hfail i le_rfl hilt
      have hlast : ¬ (i = retries - 1) := by omega
      rw [show retryLoopAux beh url options retries i (n + 1) =
          (Event.attempt i :: Event.retryLog (i + 1) retries ::
            Event.backoff 2000 ::
            (retryLoopAux beh url options retries (i + 1) n).1,
            (retryLoopAux beh url options retries (i + 1) n).2) by
        simp [retryLoopAux, hai, hlast]]
      rw [ih (i + 1) j (by omega) (by omega) h3
        (fun m hm1 hm2 => hfail m (by omega) hm2) hok]
      rw [runTrace_cons retries i j hilt]

theorem countAttempts_le_of_ok (beh : Nat → TransportBehavior) (url : String)
    (options : JsObject) (retries : Nat) :
    ∀ n i j, i ≤ j → attemptOk beh url options j = true →
      countAttempts (retryLoopAux beh url options retries i n).1 ≤ j + 1 - i := by
  intro n
  induction n with
  | zero =>
    intro i j _ _
    simp [retryLoopAux, countAttempts]
  | succ n ih =>
    intro i j hij hok
    cases hai : attemptResult beh url options i with
    | ok resp =>
      simp [retryLoopAux, hai, countAttempts]
      omega
    | error e =>
      have hine : i ≠ j := by
        intro h
        subst h
        simp [attemptOk, hai] at hok
      by_cases hlast : i = retries - 1
      · subst hlast
        simp [retryLoopAux, hai, countAttempts]
        omega
      · have hrec := ih (i + 1) j (by omega) hok
        simp only [retryLoopAux, hai]
        rw [if_neg hlast]
        simp only [countAttempts]
        omega

theorem specRetryLoopAux_default (beh : Nat → TransportBehavior) (url : String)
    (options : JsObject) (retries : Nat) :
    ∀ n i, specRetryLoopAux beh url options 10000 retries i n =
      retryLoopAux beh url options retries i n := by
  intro n
  induction n with
  | zero =>
    intro i
    rfl
  | succ n ih =>
    intro i
    have hattempt : specAttemptResult beh url options 10000 i =
        attemptResult beh url options i := rfl
    simp only [specRetryLoopAux, retryLoopAux, hattempt]
    cases attemptResult beh url options i with
    | ok resp => rfl
    | error e =>
      by_cases h : i = retries - 1
      · simp [h]
      · simp [h, ih]

theorem retryLoopAux_uniform (beh1 : Nat → TransportBehavior) (url1 : String)
    (o1 : JsObject) (beh2 : Nat → TransportBehavior) (url2 : String)
    (o2 : JsObject) (retries : Nat)
    (h : ∀ i, attemptOk beh1 url1 o1 i = attemptOk beh2 url2 o2 i) :
    ∀ n i,
      (retryLoopAux beh1 url1 o1 retries i n).1 =
        (retryLoopAux beh2 url2 o2 retries i n).1 ∧
      (retryLoopAux beh1 url1 o1 retries i n).2.isOk =
        (retryLoopAux beh2 url2 o2 retries i n).2.isOk ∧
      (retryLoopAux beh1 url1 o1 retries i n).2.isErr =
        (retryLoopAux beh2 url2 o2 retries i n).2.isErr := by
  intro n
  induction n with
  | zero =>
    intro i
    exact ⟨rfl, rfl, rfl⟩
  | succ n ih =>
    intro i
    have hi := h i
    cases ha1 : attemptResult beh1 url1 o1 i with
    | ok resp1 =>
      cases ha2 : attemptResult beh2 url2 o2 i with
      | ok resp2 =>
        simp [retryLoopAux, ha1, ha2, RetryResult.isOk, RetryResult.isErr]
      | error e2 =>
        rw [attemptOk, attemptOk, ha1, ha2] at hi
        simp at hi
    | error e1 =>
      cases ha2 : attemptResult beh2 url2 o2 i with
      | ok resp2 =>
        rw [attemptOk, attemptOk, ha1, ha2] at hi
        simp at hi
      | error e2 =>
        by_cases hlast : i = retries - 1
        · subst hlast
          simp [retryLoopAux, ha1, ha2, RetryResult.isOk, RetryResult.isErr]
        · have hrec := ih (i + 1)
          simp only [retryLoopAux, ha1, ha2]
          rw [if_neg hlast, if_neg hlast]
          simp only []
          exact ⟨by rw [hrec.1], hrec.2.1, hrec.2.2⟩

/-! Lemmas about the options object handed to `fetch`. -/

theorem objGet_map_ne (t : JsObject) (k k' : String) (v : JsValue)
    (h : k' ≠ k) :
    objGet (t.map (fun p => if p.1 = k then (k, v) else p)) k' =
      objGet t k' := by
  have h2 : ¬ (k = k') := fun hh => h hh.symm
  induction t with
  | nil => rfl
  | cons p t ih =>
    obtain ⟨a, b⟩ := p
    simp only [List.map_cons]
    by_cases hak : a = k
    · rw [show (if (a, b).1 = k then (k, v) else (a, b)) = (k, v) by
        simp [hak]]
      simp [objGet, h2, ih, hak]
    · rw [show (if (a, b).1 = k then (k, v) else (a, b)) = (a, b) by
        simp [hak]]
      simp [objGet, ih]

theorem objGet_append_ne (t : JsObject) (k k' : String) (v : JsValue)
    (h : k' ≠ k) :
    objGet (t ++ [(k, v)]) k' = objGet t k' := by
  have h2 : ¬ (k = k') := fun hh => h hh.symm
  induction t with
  | nil => simp [objGet, h2]
  | cons p t ih =>
    obtain ⟨a, b⟩ := p
    by_cases hak : a = k'
    · simp [objGet, hak]
    · simp [objGet, hak, ih]

theorem objGet_map_self (t : JsObject) (k : String) (v : JsValue)
    (hh : objHas t k = true) :
    objGet (t.map (fun p => if p.1 = k then (k, v) else p)) k = some v := by
  induction t with
  | nil => simp [objHas] at hh
  | cons p t ih =>
    obtain ⟨a, b⟩ := p
    simp only [List.map_cons]
    by_cases hak : a = k
    · rw [show (if (a, b).1 = k then (k, v) else (a, b)) = (k, v) by
        simp [hak]]
      simp [objGet]
    · rw [show (if (a, b).1 = k then (k, v) else (a, b)) = (a, b) by
        simp [hak]]
      have ht : objHas t k = true := by
        rw [objHas] at hh
        simpa [hak] using hh
      simp [objGet, hak, ih ht]

theorem objGet_append_self (t : JsObject) (k : String) (v : JsValue)
    (hh : objHas t k = false) :
    objGet (t ++ [(k, v)]) k = some v := by
  induction t with
  | nil => simp [objGet]
  | cons p t ih =>
    obtain ⟨a, b⟩ := p
    have hak : ¬ (a = k) := by
      intro hcontra
      rw [objHas] at hh
      simp [hcontra] at hh
    have ht : objHas t k = false := by
      rw [objHas] at hh
      simpa [hak] using hh
    simp [objGet, hak, ih ht]

theorem objGet_objSet_self (o : JsObject) (k : String) (v : JsValue) :
    objGet (objSet o k v) k = some v := by
  unfold objSet
  by_cases hh : objHas o k
  · rw [if_pos hh]
    exact objGet_map_self o k v hh
  · rw [if_neg hh]
    exact objGet_append_self o k v (by simpa using hh)

theorem objGet_objSet_ne (o : JsObject) (k k' : String) (v : JsValue)
    (h : k' ≠ k) :
    objGet (objSet o k v) k' = objGet o k' := by
  unfold objSet
  by_cases hh : objHas o k
  · rw [if_pos hh]
    exact objGet_map_ne o k k' v h
  · rw [if_neg hh]
    exact objGet_append_ne o k k' v h

theorem sentInit_fetchWithTimeout (b : TransportBehavior) (url : String)
    (options : JsObject) (timeout : Nat) :
    (fetchWithTimeout b url options timeout).sentInit =
      objSet options "signal" (JsValue.signalRef 0) := by
  cases b <;> simp [fetchWithTimeout] <;> split <;> rfl

/-! The claims. -/

/-- Claim C1: for every call in which every one of the `retries` attempts
fails (by timeout, transport error, or non-success status), the call makes
exactly `retries` attempts — never more — and then throws the failure of the
last attempt to the caller. -/
theorem retry_exhaustion_last_error (beh : Nat → TransportBehavior)
    (url : String) (options : JsObject) (retries : Nat) (es : Nat → FetchError)
    (hpos : 1 ≤ retries)
    (hfail : ∀ j, j < retries →
      attemptResult beh url options j = .error (es j)) :
    fetchWithRetry beh url options retries =
      (runTrace retries 0 (retries - 1), .err (es (retries - 1))) ∧
    countAttempts (fetchWithRetry beh url options retries).1 = retries := by
  have hmain : fetchWithRetry beh url options retries =
      (runTrace retries 0 (retries - 1), .err (es (retries - 1))) :=
    retryLoopAux_allFail beh url options retries es retries 0 (by omega)
      (by omega) (fun j _ h2 => hfail j h2)
  refine ⟨hmain, ?_⟩
  rw [hmain]
  rw [show (runTrace retries 0 (retries - 1), RetryResult.err
      (es (retries - 1))).1 = runTrace retries 0 (retries - 1) from rfl]
  rw [countAttempts_runTrace_of_le retries 0 (retries - 1) (by omega)]
  omega

theorem retry_exhaustion_last_error_witness :
    fetchWithRetry (fun _ => .arrives 20000 ⟨200⟩) "u" [] 3 =
      (runTrace 3 0 (3 - 1), .err .aborted) ∧
    countAttempts (fetchWithRetry (fun _ => .arrives 20000 ⟨200⟩) "u" [] 3).1
      = 3 :=
  retry_exhaustion_last_error (fun _ => .arrives 20000 ⟨200⟩) "u" [] 3
    (fun _ => .aborted) (by decide) (by decide)

/-- Claim C2 as stated is false on the code: the retry wrapper does not
accept a per-call timeout.  With a transport that settles at 5000 ms, the
spec's interface called with `timeoutMs = 1000` fails every attempt, while
the source's `fetchWithRetry` — which has no timeout parameter and leaves
`fetchWithTimeout` at its default 10000 — succeeds. -/
theorem no_caller_timeout_counterexample :
    (resilientFetchSpec (fun _ => .arrives 5000 ⟨200⟩) "u" [] 1000 3).2.isOk
      = false ∧
    (fetchWithRetry (fun _ => .arrives 5000 ⟨200⟩) "u" [] 3).2.isOk = true := by
  decide

/-- Claim C2 amended: `fetchWithRetry(url, options = {}, retries = 3)`
exposes no timeout parameter; every attempt inside the retry loop is bounded
by the fixed default timeout of 10000 ms of `fetchWithTimeout`, so the code
coincides with the spec's interface exactly when `timeoutMs` is the default
10000. -/
theorem retry_uses_fixed_default_timeout (beh : Nat → TransportBehavior)
    (url : String) (options : JsObject) (retries : Nat) :
    fetchWithRetry beh url options retries =
      resilientFetchSpec beh url options 10000 retries ∧
    (∀ i, attemptResult beh url options i =
      specAttemptResult beh url options 10000 i) :=
  ⟨(specRetryLoopAux_default beh url options retries retries 0).symm,
    fun _ => rfl⟩

/-- Claim C3: if the transport fails on attempts `0..j-1` and attempt `j`
succeeds with a success status (`j < retries`), exactly `j + 1` attempts
occur, a fixed 2000 ms backoff is inserted between each pair of consecutive
attempts (`j` backoffs in all), and the attempt-`j` response is returned. -/
theorem retry_succeeds_after_failures (beh : Nat → TransportBehavior)
    (url : String) (options : JsObject) (retries : Nat) (es : Nat → FetchError)
    (resp : Response) (j : Nat) (hj : j < retries)
    (hfail : ∀ m, m < j → attemptResult beh url options m = .error (es m))
    (hok : attemptResult beh url options j = .ok resp) :
    fetchWithRetry beh url options retries = (runTrace retries 0 j, .ok resp) ∧
    countAttempts (fetchWithRetry beh url options retries).1 = j + 1 ∧
    (fetchWithRetry beh url options retries).1.filter Event.isBackoff =
      List.replicate j (Event.backoff 2000) := by
  have hmain : fetchWithRetry beh url options retries =
      (runTrace retries 0 j, .ok resp) :=
    retryLoopAux_succAt beh url options retries es resp retries 0 j (by omega)
      (by omega) hj (fun m _ hm => hfail m hm) hok
  refine ⟨hmain, ?_, ?_⟩
  · rw [hmain]
    simpa using countAttempts_runTrace retries j 0
  · rw [hmain]
    simpa using filter_backoff_runTrace retries j 0

theorem retry_succeeds_after_failures_witness :
    fetchWithRetry
        (fun i => if i = 0 then .fails 0 "refused" else .arrives 0 ⟨200⟩)
        "u" [] 3 = (runTrace 3 0 1, .ok ⟨200⟩) ∧
    countAttempts (fetchWithRetry
        (fun i => if i = 0 then .fails 0 "refused" else .arrives 0 ⟨200⟩)
        "u" [] 3).1 = 1 + 1 ∧
    (fetchWithRetry
        (fun i => if i = 0 then .fails 0 "refused" else .arrives 0 ⟨200⟩)
        "u" [] 3).1.filter Event.isBackoff =
      List.replicate 1 (Event.backoff 2000) :=
  retry_succeeds_after_failures
    (fun i => if i = 0 then .fails 0 "refused" else .arrives 0 ⟨200⟩)
    "u" [] 3 (fun _ => .transport "refused") ⟨200⟩ 1 (by decide) (by decide)
    (by decide)

/-- Claim C4: a success with a success status on the first attempt returns
that response after exactly one attempt, with no notice and no backoff; and
in general a success is final — if attempt `i` would succeed, the call never
makes more than `i + 1` attempts. -/
theorem success_is_immediate (beh : Nat → TransportBehavior) (url : String)
    (options : JsObject) (retries : Nat) (resp : Response) :
    (attemptResult beh url options 0 = .ok resp → 1 ≤ retries →
      fetchWithRetry beh url options retries =
        ([Event.attempt 0], .ok resp)) ∧
    (∀ i, attemptOk beh url options i = true →
      countAttempts (fetchWithRetry beh url options retries).1 ≤ i + 1) := by
  constructor
  · intro h0 hr
    have hmain : fetchWithRetry beh url options retries =
        (runTrace retries 0 0, .ok resp) :=
      retryLoopAux_succAt beh url options retries (fun _ => .aborted) resp
        retries 0 0 (by omega) (by omega) (by omega)
        (fun m _ hm => absurd hm (Nat.not_lt_zero m)) h0
    rw [hmain, runTrace_self]
  · intro i hi
    simpa using countAttempts_le_of_ok beh url options retries retries 0 i
      (by omega) hi

theorem success_is_immediate_witness :
    fetchWithRetry (fun _ => .arrives 0 ⟨204⟩) "u" [] 3 =
      ([Event.attempt 0], .ok ⟨204⟩) ∧
    countAttempts (fetchWithRetry (fun _ => .arrives 0 ⟨204⟩) "u" [] 3).1
      ≤ 0 + 1 :=
  ⟨(success_is_immediate (fun _ => .arrives 0 ⟨204⟩) "u" [] 3 ⟨204⟩).1
      (by decide) (by decide),
    (success_is_immediate (fun _ => .arrives 0 ⟨204⟩) "u" [] 3 ⟨204⟩).2 0
      (by decide)⟩

/-- Claim C5: when the transport has not settled within the configured
timeout, the timer fires and `controller.abort()` actively cancels the
in-flight call — the attempt fails with the abort error and the underlying
call is aborted, not merely no longer awaited; when the transport settles
strictly within the timeout, the call is never aborted. -/
theorem timeout_aborts_inflight (b : TransportBehavior) (url : String)
    (options : JsObject) (timeout : Nat) :
    (timeout ≤ b.settleTime →
      (fetchWithTimeout b url options timeout).aborted = true ∧
      (fetchWithTimeout b url options timeout).result = .error .aborted) ∧
    (b.settleTime < timeout →
      (fetchWithTimeout b url options timeout).aborted = false) := by
  constructor
  · intro h
    have hn : ¬ b.settleTime < timeout := by omega
    rw [show fetchWithTimeout b url options timeout =
        ⟨.error .aborted, true, objSet options "signal"
          (JsValue.signalRef 0)⟩ by
      simp only [fetchWithTimeout]
      rw [if_neg hn]]
    exact ⟨rfl, rfl⟩
  · intro h
    cases b with
    | arrives t resp =>
      simp only [fetchWithTimeout]
      rw [if_pos h]
    | fails t msg =>
      simp only [fetchWithTimeout]
      rw [if_pos h]

theorem timeout_aborts_inflight_witness :
    ((fetchWithTimeout (.arrives 20000 ⟨200⟩) "u" [] 10000).aborted = true ∧
      (fetchWithTimeout (.arrives 20000 ⟨200⟩) "u" [] 10000).result =
        .error .aborted) ∧
    (fetchWithTimeout (.arrives 5 ⟨200⟩) "u" [] 10000).aborted = false :=
  ⟨(timeout_aborts_inflight (.arrives 20000 ⟨200⟩) "u" [] 10000).1
      (by decide),
    (timeout_aborts_inflight (.arrives 5 ⟨200⟩) "u" [] 10000).2 (by decide)⟩

/-- Claim C6: a response received in time whose status is non-success is
converted into a thrown failure (`HTTP error! Status: s`) for retry purposes;
and the loop applies no cause-specific policy — two transports whose attempts
succeed and fail in the same pattern, whatever the causes (timeout, transport
error, or non-success status such as 404), produce identical event traces and
the same outcome classification. -/
theorem failures_treated_uniformly :
    (∀ (beh : Nat → TransportBehavior) (url : String) (options : JsObject)
        (i t : Nat) (resp : Response),
      beh i = .arrives t resp → t < 10000 → resp.ok = false →
      attemptResult beh url options i = .error (.httpStatus resp.status)) ∧
    (∀ (beh1 : Nat → TransportBehavior) (url1 : String) (o1 : JsObject)
        (beh2 : Nat → TransportBehavior) (url2 : String) (o2 : JsObject)
        (retries : Nat),
      (∀ i, attemptOk beh1 url1 o1 i = attemptOk beh2 url2 o2 i) →
      (fetchWithRetry beh1 url1 o1 retries).1 =
        (fetchWithRetry beh2 url2 o2 retries).1 ∧
      (fetchWithRetry beh1 url1 o1 retries).2.isOk =
        (fetchWithRetry beh2 url2 o2 retries).2.isOk ∧
      (fetchWithRetry beh1 url1 o1 retries).2.isErr =
        (fetchWithRetry beh2 url2 o2 retries).2.isErr) := by
  constructor
  · intro beh url options i t resp hbeh ht hok
    simp [attemptResult, fetchWithTimeout, hbeh, TransportBehavior.settleTime,
      ht, hok]
  · intro beh1 url1 o1 beh2 url2 o2 retries h
    exact retryLoopAux_uniform beh1 url1 o1 beh2 url2 o2 retries h retries 0

theorem failures_treated_uniformly_witness :
    attemptResult (fun _ => .arrives 5 ⟨404⟩) "u" [] 0 =
      .error (.httpStatus 404) ∧
    ((fetchWithRetry (fun _ => .arrives 5 ⟨404⟩) "u" [] 3).1 =
        (fetchWithRetry (fun _ => .arrives 20000 ⟨200⟩) "u" [] 3).1 ∧
      (fetchWithRetry (fun _ => .arrives 5 ⟨404⟩) "u" [] 3).2.isOk =
        (fetchWithRetry (fun _ => .arrives 20000 ⟨200⟩) "u" [] 3).2.isOk ∧
      (fetchWithRetry (fun _ => .arrives 5 ⟨404⟩) "u" [] 3).2.isErr =
        (fetchWithRetry (fun _ => .arrives 20000 ⟨200⟩) "u" [] 3).2.isErr) :=
  ⟨failures_treated_uniformly.1 (fun _ => .arrives 5 ⟨404⟩) "u" [] 0 5 ⟨404⟩
      rfl (by decide) (by decide),
    failures_treated_uniformly.2 (fun _ => .arrives 5 ⟨404⟩) "u" []
      (fun _ => .arrives 20000 ⟨200⟩) "u" [] 3 (fun _ => rfl)⟩

/-- Claim C7: with a deterministic transport (the same per-attempt behavior
on both runs), two calls with identical arguments produce the same
classification of outcome — both succeed or both fail. -/
theorem idempotent_classification (beh1 beh2 : Nat → TransportBehavior)
    (url : String) (options : JsObject) (retries : Nat)
    (h : ∀ i, beh1 i = beh2 i) :
    (fetchWithRetry beh1 url options retries).2.isOk =
      (fetchWithRetry beh2 url options retries).2.isOk ∧
    (fetchWithRetry beh1 url options retries).2.isErr =
      (fetchWithRetry beh2 url options retries).2.isErr := by
  have hbeh : beh1 = beh2 := funext h
  subst hbeh
  exact ⟨rfl, rfl⟩

theorem idempotent_classification_witness :
    (fetchWithRetry (fun _ => .arrives 5 ⟨200⟩) "u" [] 3).2.isOk =
      (fetchWithRetry (fun _ => .arrives 5 ⟨200⟩) "u" [] 3).2.isOk ∧
    (fetchWithRetry (fun _ => .arrives 5 ⟨200⟩) "u" [] 3).2.isErr =
      (fetchWithRetry (fun _ => .arrives 5 ⟨200⟩) "u" [] 3).2.isErr :=
  idempotent_classification (fun _ => .arrives 5 ⟨200⟩)
    (fun _ => .arrives 5 ⟨200⟩) "u" [] 3 (fun _ => rfl)

/-- Claim C8: with a retry count of zero the loop body never executes: the
call makes no transport attempt and falls through to an `undefined` return —
neither a returned response nor a thrown failure. -/
theorem zero_retries_returns_undefined (beh : Nat → TransportBehavior)
    (url : String) (options : JsObject) :
    fetchWithRetry beh url options 0 = ([], .undef) ∧
    countAttempts (fetchWithRetry beh url options 0).1 = 0 ∧
    RetryResult.isOk (fetchWithRetry beh url options 0).2 = false ∧
    RetryResult.isErr (fetchWithRetry beh url options 0).2 = false :=
  ⟨rfl, rfl, rfl, rfl⟩

/-- Claim C9: the caller's options object reaches `fetch` with every property
unchanged — in particular the `headers` value is the identical header map —
except that an abort `signal` property is installed. -/
theorem options_passed_through (b : TransportBehavior) (url : String)
    (options : JsObject) (timeout : Nat) :
    (∀ k, k ≠ "signal" →
      objGet (fetchWithTimeout b url options timeout).sentInit k =
        objGet options k) ∧
    objGet (fetchWithTimeout b url options timeout).sentInit "signal" =
      some (JsValue.signalRef 0) := by
  constructor
  · intro k hk
    rw [sentInit_fetchWithTimeout]
    exact objGet_objSet_ne options "signal" k (JsValue.signalRef 0) hk
  · rw [sentInit_fetchWithTimeout]
    exact objGet_objSet_self options "signal" (JsValue.signalRef 0)

theorem options_passed_through_witness :
    objGet (fetchWithTimeout (.arrives 5 ⟨200⟩) "u"
        [("headers", .headerMap [("Referer", "https://mangadex.org")]),
          ("body", .str "p")] 10000).sentInit "headers" =
      objGet [("headers",
          JsValue.headerMap [("Referer", "https://mangadex.org")]),
          ("body", .str "p")] "headers" ∧
    objGet (fetchWithTimeout (.arrives 5 ⟨200⟩) "u"
        [("headers", .headerMap [("Referer", "https://mangadex.org")]),
          ("body", .str "p")] 10000).sentInit "signal" =
      some (JsValue.signalRef 0) :=
  ⟨(options_passed_through (.arrives 5 ⟨200⟩) "u"
      [("headers", .headerMap [("Referer", "https://mangadex.org")]),
        ("body", .str "p")] 10000).1 "headers" (by decide),
    (options_passed_through (.arrives 5 ⟨200⟩) "u"
      [("headers", .headerMap [("Referer", "https://mangadex.org")]),
        ("body", .str "p")] 10000).2⟩

/-- Claim C10: a call decided at attempt `j` (zero-based; success at `j`
after failures, or exhaustion with `j = retries - 1`) emits exactly `j` retry
notices — one before each attempt after the first — the m-th reading
`Retrying (m/retries)...` for `m = 1..j`. -/
theorem retry_notices (beh : Nat → TransportBehavior) (url : String)
    (options : JsObject) (retries : Nat) (es : Nat → FetchError) :
    (∀ j resp, j < retries →
      (∀ m, m < j → attemptResult beh url options m = .error (es m)) →
      attemptResult beh url options j = .ok resp →
      (fetchWithRetry beh url options retries).1.filter Event.isRetryLog =
        (List.range' 1 j).map (fun m => Event.retryLog m retries)) ∧
    (1 ≤ retries →
      (∀ j, j < retries →
        attemptResult beh url options j = .error (es j)) →
      (fetchWithRetry beh url options retries).1.filter Event.isRetryLog =
        (List.range' 1 (retries - 1)).map
          (fun m => Event.retryLog m retries)) := by
  constructor
  · intro j resp hj hfail hok
    have hmain : fetchWithRetry beh url options retries =
        (runTrace retries 0 j, .ok resp) :=
      retryLoopAux_succAt beh url options retries es resp retries 0 j
        (by omega) (by omega) hj (fun m _ hm => hfail m hm) hok
    rw [hmain]
    simpa using filter_retryLog_runTrace retries j 0
  · intro hpos hfail
    have hmain : fetchWithRetry beh url options retries =
        (runTrace retries 0 (retries - 1), .err (es (retries - 1))) :=
      retryLoopAux_allFail beh url options retries es retries 0 (by omega)
        (by omega) (fun j _ h2 => hfail j h2)
    rw [hmain]
    simpa using filter_retryLog_runTrace retries (retries - 1) 0

theorem retry_notices_witness :
    (fetchWithRetry
        (fun i => if i < 2 then .fails 0 "x" else .arrives 0 ⟨200⟩)
        "u" [] 3).1.filter Event.isRetryLog =
      (List.range' 1 2).map (fun m => Event.retryLog m 3) ∧
    (fetchWithRetry (fun _ => .arrives 0 ⟨500⟩) "u" [] 3).1.filter
        Event.isRetryLog =
      (List.range' 1 (3 - 1)).map (fun m => Event.retryLog m 3) :=
  ⟨(retry_notices
      (fun i => if i < 2 then .fails 0 "x" else .arrives 0 ⟨200⟩) "u" [] 3
      (fun _ => .transport "x")).1 2 ⟨200⟩ (by decide) (by decide) (by decide),
    (retry_notices (fun _ => .arrives 0 ⟨500⟩) "u" [] 3
      (fun _ => .httpStatus 500)).2 (by decide) (by decide)⟩

end MangaWeb
